import Mathlib

/-! The JNI binding of the binary dictionary.

A shallow embedding of `dictionary/jni/com_android_inputmethod_latin_BinaryDictionary.cpp`:
the four native methods (`open`, `getSuggestions`, `isValidWord`, `close`) and the library
loader (`registerNativeMethods`, `registerNatives`, `JNI_OnLoad`).

Conventions.

* A `jint` is an `Int`; the conversions between pointers and `jint` are explicit
  (`ptrToJint`, `jintToPtr`) and wrap at the widths of the two types.
* What the binding obtains from its collaborators (the VM, the asset manager, the allocator,
  the suggestion engine) is an argument of the embedded function: a field of `OpenEnv`,
  `LoadEnv`, `ArrayVM`, or an engine function.
* Every embedded function returns, next to its C++ return value, the list of calls it made to
  its collaborators (`Event`) and the memory it leaves behind (`World`).  Logging
  (`LOGE`, `fprintf`) is not recorded.
-/

namespace BinaryDictionary

/-! ## Machine integers and pointers -/

/-- The value of an integer after conversion to the 32-bit signed type `jint`. -/
def wrapJint (n : Int) : Int := (n + 2 ^ 31) % 2 ^ 32 - 2 ^ 31

/-- The pointer width of the target.  The cast `(jint) dictionary` of `open` is well-formed
C++ only where a pointer is no wider than a `jint`, so a handle is produced by `open` only
on a target of width `w32`. -/
inductive PtrWidth where
  | w32
  | w64
  deriving DecidableEq, Repr

/-- Number of bits of a pointer. -/
def PtrWidth.bits : PtrWidth → Nat
  | .w32 => 32
  | .w64 => 64

/-- The cast `(jint) dictionary`: an address converted to `jint`. -/
def ptrToJint (addr : Nat) : Int := wrapJint (addr : Int)

/-- The casts `(Dictionary*) dict` and `(AssetManager*) env->GetIntField(..)`: a `jint`
converted to a pointer of the target's width (two's complement, so a negative `jint` is
sign-extended on a 64-bit target). -/
def jintToPtr (w : PtrWidth) (h : Int) : Nat := (h % 2 ^ w.bits).toNat

/-- Release mode `JNI_ABORT` of `jni.h`. -/
def JNI_ABORT : Int := 2

/-- Value `JNI_VERSION_1_4` of `jni.h`. -/
def JNI_VERSION_1_4 : Int := 0x00010004

/-- Value `JNI_FALSE` of `jni.h`. -/
def JNI_FALSE : Int := 0

/-- Value `JNI_TRUE` of `jni.h`. -/
def JNI_TRUE : Int := 1

/-! ## Memory, collaborators and recorded calls -/

/-- A native pointer to the elements of a primitive array: the elements of the Java `int[]`
or `char[]` object itself (what the VM hands out when it pins the array), or a buffer the VM
allocated to hold a copy. -/
inductive Ptr where
  | intArray (array : Nat)
  | charArray (array : Nat)
  | copy (k : Nat)
  deriving DecidableEq, Repr

/-- Modelled from the spec: the class `Dictionary`, whose declaration (`dictionary.h`) is
missing from the sources.  An object records what the binding hands to it: the
dictionary buffer and the two multipliers given to the constructor (spec section 4.3, "both
positive multipliers supplied at open time") and the asset attached with `setAsset`, which
`getAsset` returns. -/
structure Dictionary where
  dict : List Nat
  typedLetterMultiplier : Int
  fullWordMultiplier : Int
  asset : Option Nat
  deriving DecidableEq, Repr

/-- An `Asset` as the binding sees it: the object's identity and what `getBuffer(false)`
returns for it (`none` is `NULL`, otherwise the bytes of the buffer). -/
structure Asset where
  id : Nat
  buffer : Option (List Nat)
  deriving DecidableEq, Repr

/-- The native heap of `Dictionary` objects and the memory of array elements. -/
structure World where
  heap : Nat → Option Dictionary
  mem : Ptr → List Int

/-- A call made by the binding to one of its collaborators. -/
inductive Event where
  | getIntField
  | getStringUTFChars
  | releaseStringUTFChars
  | openNonAsset (result : Option Nat)
  | getBuffer (asset : Nat)
  | newDictionary (addr : Nat)
  | setAsset (dictionary asset : Nat)
  | getAsset (dictionary : Nat)
  | closeAsset (asset : Nat)
  | deleteDictionary (addr : Nat)
  | getIntArrayElements (array : Nat)
  | getCharArrayElements (array : Nat)
  | releaseIntArrayElements (array : Nat) (mode : Int)
  | releaseCharArrayElements (array : Nat) (mode : Int)
  | engineGetSuggestions (dictionary : Nat)
  | engineIsValidWord (dictionary : Nat)
  | findClass (name : String)
  | throwNew (cls : String) (data : Int)
  | deleteLocalRef
  deriving DecidableEq, Repr

/-- The return value of a native method, the calls it made, and the memory afterwards. -/
structure Outcome (α : Type) where
  value : α
  events : List Event
  world : World

/-- Whether an event raises a Java exception. -/
def Event.isThrow : Event → Bool
  | .throwNew _ _ => true
  | _ => false

/-- Whether an event constructs a `Dictionary`. -/
def Event.isNew : Event → Bool
  | .newDictionary _ => true
  | _ => false

/-- The assets that a sequence of calls, read in the order in which they were made, has
opened and not closed since, oldest first. -/
def heldAssets (es : List Event) : List Nat :=
  es.foldl
    (fun held e =>
      match e with
      | .openNonAsset (some a) => held ++ [a]
      | .closeAsset a => held.erase a
      | _ => held)
    []

/-- Pointwise update of a function. -/
def update {α β : Type} [DecidableEq α] (f : α → β) (a : α) (b : β) : α → β :=
  fun x => if x = a then b else f x

/-! ## `throwException` -/

/-- The helper `throwException`: looks the exception class up and, when it is found, throws
a new exception of that class and drops the local reference.  `classFound` is the result of
`FindClass`. -/
def throwException (classFound : Bool) (ex : String) (data : Int) : List Event :=
  if classFound then [.findClass ex, .throwNew ex data, .deleteLocalRef]
  else [.findClass ex]

/-! ## `latinime_BinaryDictionary_open` -/

/-- What `open` obtains from its collaborators: the pointer width of the target, the value
of the asset manager's `mObject` field, the UTF characters of the resource string, the
result of `AssetManager::openNonAsset` on a path (`none` is `NULL`), and the address of the
object allocated by `new Dictionary`. -/
structure OpenEnv where
  width : PtrWidth
  amField : Int
  resourcePath : String
  openNonAsset : String → Option Asset
  newAddr : Nat

/-- The pointer `am` of `open`. -/
def OpenEnv.am (env : OpenEnv) : Nat := jintToPtr env.width env.amField

/-- The native method `open`. -/
def latinime_BinaryDictionary_open (env : OpenEnv) (w : World)
    (typedLetterMultiplier fullWordMultiplier : Int) : Outcome Int :=
  if env.am = 0 then
    ⟨0, [.getIntField], w⟩
  else
    match env.openNonAsset env.resourcePath with
    | none =>
      ⟨0, [.getIntField, .getStringUTFChars, .openNonAsset none, .releaseStringUTFChars], w⟩
    | some dictAsset =>
      match dictAsset.buffer with
      | none =>
        ⟨0, [.getIntField, .getStringUTFChars, .openNonAsset (some dictAsset.id),
             .getBuffer dictAsset.id, .releaseStringUTFChars], w⟩
      | some dict =>
        let dictionary : Dictionary :=
          ⟨dict, typedLetterMultiplier, fullWordMultiplier, none⟩
        let dictionary1 : Dictionary := { dictionary with asset := some dictAsset.id }
        ⟨ptrToJint env.newAddr,
         [.getIntField, .getStringUTFChars, .openNonAsset (some dictAsset.id),
          .getBuffer dictAsset.id, .newDictionary env.newAddr,
          .setAsset env.newAddr dictAsset.id, .releaseStringUTFChars],
         { w with heap := update w.heap env.newAddr (some dictionary1) }⟩

/-! ## `latinime_BinaryDictionary_close` -/

/-- The native method `close`.  The result is `none` where the C++ code has no defined
behaviour: the pointer obtained from the handle is not the address of a live `Dictionary`,
or that `Dictionary` has no asset attached. -/
def latinime_BinaryDictionary_close (width : PtrWidth) (w : World) (dict : Int) :
    Option (Outcome Unit) :=
  let dictionary := jintToPtr width dict
  match w.heap dictionary with
  | none => none
  | some d =>
    match d.asset with
    | none => none
    | some a =>
      some ⟨(), [.getAsset dictionary, .closeAsset a, .deleteDictionary dictionary],
            { w with heap := update w.heap dictionary none }⟩

/-! ## Library loading -/

/-- What the loader obtains from the VM: whether `GetEnv` returns `JNI_OK`, whether
`FindClass` finds a class, and the value returned by `RegisterNatives`. -/
structure LoadEnv where
  getEnvOk : Bool
  findClass : String → Bool
  registerNativesResult : Int

/-- The function `registerNativeMethods`. -/
def registerNativeMethods (env : LoadEnv) (className : String) : Int :=
  if env.findClass className = false then JNI_FALSE
  else if env.registerNativesResult < 0 then JNI_FALSE
  else JNI_TRUE

/-- The function `registerNatives`. -/
def registerNatives (env : LoadEnv) : Int :=
  let kClassPathName := "com/android/inputmethod/latin/BinaryDictionary"
  if env.findClass "java/io/FileDescriptor" = false then -1
  else if env.findClass "android/content/res/AssetManager" = false then -1
  else registerNativeMethods env kClassPathName

/-- The function `JNI_OnLoad`: `result` starts at `-1`, and `!registerNatives(env)` holds
when `registerNatives` returns `0`. -/
def JNI_OnLoad (env : LoadEnv) : Int :=
  if env.getEnvOk = false then -1
  else if registerNatives env = 0 then -1
  else JNI_VERSION_1_4

/-! ## Primitive arrays -/

/-- Memory of array elements. -/
abbrev Mem := Ptr → List Int

/-- What the VM does when the elements of a primitive array are requested: whether the
`k`-th `Get<Type>ArrayElements` call of a native method hands out a copy of the elements
(in a buffer of its own) or the elements of the pinned array itself.  The binding passes
`NULL` for `isCopy`, so it is served either way. -/
structure ArrayVM where
  copies : Nat → Bool

/-- The JNI functions `GetIntArrayElements` and `GetCharArrayElements`, as the `k`-th
acquisition of a call: the pointer handed out and the memory afterwards. -/
def getArrayElements (vm : ArrayVM) (k : Nat) (array : Ptr) (m : Mem) : Ptr × Mem :=
  if vm.copies k then (.copy k, update m (.copy k) (m array)) else (array, m)

/-- The JNI functions `ReleaseIntArrayElements` and `ReleaseCharArrayElements`: with mode
`JNI_ABORT` the buffer is dropped and nothing is copied back; with the other modes the
buffer is copied back to the array (which changes nothing when the buffer is the array
itself). -/
def releaseArrayElements (array elems : Ptr) (mode : Int) (m : Mem) : Mem :=
  if mode = JNI_ABORT then m else update m array (m elems)

/-- The arguments of `Dictionary::getSuggestions`, the object pointer included. -/
structure SuggestArgs where
  dictionary : Nat
  codes : Ptr
  codesSize : Int
  outWords : Ptr
  frequencies : Ptr
  maxWordLength : Int
  maxWords : Int
  maxAlternatives : Int
  skipPos : Int

/-- A behaviour of `Dictionary::getSuggestions`: from its arguments and the memory, the
count it returns and the memory it leaves. -/
abbrev SuggestEngine := SuggestArgs → Mem → Int × Mem

/-- A behaviour of `Dictionary::isValidWord`: from the object pointer, the word pointer, the
word length and the memory, the answer and the memory it leaves. -/
abbrev ValidEngine := Nat → Ptr → Int → Mem → Bool × Mem

/-- The engine writes only through the three pointers it is given. -/
def SuggestEngine.Local (engine : SuggestEngine) : Prop :=
  ∀ (a : SuggestArgs) (m : Mem) (p : Ptr),
    p ≠ a.codes → p ≠ a.outWords → p ≠ a.frequencies → (engine a m).2 p = m p

/-- The engine writes only through the word pointer it is given. -/
def ValidEngine.Local (engine : ValidEngine) : Prop :=
  ∀ (dictionary : Nat) (word : Ptr) (n : Int) (m : Mem) (p : Ptr),
    p ≠ word → (engine dictionary word n m).2 p = m p

/-- The values of the type `jint`. -/
def isJint (x : Int) : Prop := -2 ^ 31 ≤ x ∧ x < 2 ^ 31

instance (x : Int) : Decidable (isJint x) := by
  unfold isJint
  exact inferInstance

/-! ## `latinime_BinaryDictionary_getSuggestions` -/

/-- The native method `getSuggestions`. -/
def latinime_BinaryDictionary_getSuggestions (width : PtrWidth) (vm : ArrayVM)
    (engine : SuggestEngine) (w : World) (dict : Int) (inputArray : Nat) (arraySize : Int)
    (outputArray frequencyArray : Nat)
    (maxWordLength maxWords maxAlternatives skipPos : Int) : Outcome Int :=
  let dictionary := jintToPtr width dict
  if dictionary = 0 then
    ⟨0, [], w⟩
  else
    let frequencies := getArrayElements vm 0 (.intArray frequencyArray) w.mem
    let inputCodes := getArrayElements vm 1 (.intArray inputArray) frequencies.2
    let outputChars := getArrayElements vm 2 (.charArray outputArray) inputCodes.2
    let count := engine ⟨dictionary, inputCodes.1, arraySize, outputChars.1, frequencies.1,
      maxWordLength, maxWords, maxAlternatives, skipPos⟩ outputChars.2
    let m1 := releaseArrayElements (.intArray frequencyArray) frequencies.1 0 count.2
    let m2 := releaseArrayElements (.intArray inputArray) inputCodes.1 JNI_ABORT m1
    let m3 := releaseArrayElements (.charArray outputArray) outputChars.1 0 m2
    ⟨count.1,
     [.getIntArrayElements frequencyArray, .getIntArrayElements inputArray,
      .getCharArrayElements outputArray, .engineGetSuggestions dictionary,
      .releaseIntArrayElements frequencyArray 0,
      .releaseIntArrayElements inputArray JNI_ABORT,
      .releaseCharArrayElements outputArray 0],
     { w with mem := m3 }⟩

/-- The memory in which `getSuggestions` calls the engine: the memory after the three
acquisitions, in the order frequency array, input array, output array. -/
def engineCallMem (vm : ArrayVM) (w : World) (inputArray outputArray frequencyArray : Nat) :
    Mem :=
  (getArrayElements vm 2 (.charArray outputArray)
    (getArrayElements vm 1 (.intArray inputArray)
      (getArrayElements vm 0 (.intArray frequencyArray) w.mem).2).2).2

/-- The arguments with which `getSuggestions` calls the engine: the `Dictionary` pointer
obtained from the handle, the three pointers handed out by the acquisitions, and the scalar
arguments of the native method, in the order of `Dictionary::getSuggestions`. -/
def engineCallArgs (width : PtrWidth) (vm : ArrayVM) (w : World) (dict : Int)
    (inputArray : Nat) (arraySize : Int) (outputArray frequencyArray : Nat)
    (maxWordLength maxWords maxAlternatives skipPos : Int) : SuggestArgs :=
  ⟨jintToPtr width dict,
   (getArrayElements vm 1 (.intArray inputArray)
     (getArrayElements vm 0 (.intArray frequencyArray) w.mem).2).1,
   arraySize,
   (getArrayElements vm 2 (.charArray outputArray)
     (getArrayElements vm 1 (.intArray inputArray)
       (getArrayElements vm 0 (.intArray frequencyArray) w.mem).2).2).1,
   (getArrayElements vm 0 (.intArray frequencyArray) w.mem).1,
   maxWordLength, maxWords, maxAlternatives, skipPos⟩

/-! ## `latinime_BinaryDictionary_isValidWord` -/

/-- The native method `isValidWord`. -/
def latinime_BinaryDictionary_isValidWord (width : PtrWidth) (vm : ArrayVM)
    (engine : ValidEngine) (w : World) (dict : Int) (wordArray : Nat) (wordLength : Int) :
    Outcome Bool :=
  let dictionary := jintToPtr width dict
  if dictionary = 0 then
    ⟨false, [], w⟩
  else
    let word := getArrayElements vm 0 (.charArray wordArray) w.mem
    let result := engine dictionary word.1 wordLength word.2
    let m1 := releaseArrayElements (.charArray wordArray) word.1 JNI_ABORT result.2
    ⟨result.1,
     [.getCharArrayElements wordArray, .engineIsValidWord dictionary,
      .releaseCharArrayElements wordArray JNI_ABORT],
     { w with mem := m1 }⟩

/-! ## The engine behind `getSuggestions`, from the specification -/

/-- Modelled from the spec: a candidate produced by the search of the missing class
`Dictionary`, "(word, adjusted-score)" in section 4.4. -/
structure Candidate where
  word : List Int
  score : Int
  deriving DecidableEq, Repr

/-- Modelled from the spec: insertion into the ranked sequence of the missing class
`Dictionary`, "descending by score, ties broken by original insertion order" (section 4.4):
the new entry goes behind the entries of higher or equal score. -/
def insertSorted (c : Candidate) : List Candidate → List Candidate
  | [] => [c]
  | x :: xs => if c.score ≤ x.score then x :: insertSorted c xs else c :: x :: xs

/-- Modelled from the spec: the Result Ranker of section 4.4, part of the class `Dictionary`
(`dictionary.h`, `dictionary.cpp`), which is missing from the sources.  "Insert-or-update
-- if the word is already present, keep the higher of the two scores (first beats later at
equal score); otherwise insert.  If capacity would be exceeded, evict the current
lowest-scoring entry, but only if the new entry's score is strictly greater."  The ranked
sequence is kept in descending order, so its lowest-scoring entry is the last one. -/
def rankerInsert (K : Nat) (rs : List Candidate) (c : Candidate) : List Candidate :=
  match rs.find? (fun r => r.word = c.word) with
  | some old =>
    if old.score < c.score then insertSorted c (rs.filter (fun r => r.word ≠ c.word)) else rs
  | none =>
    if rs.length < K then insertSorted c rs
    else
      match rs.getLast? with
      | some low => if low.score < c.score then insertSorted c rs.dropLast else rs
      | none => rs

/-- Modelled from the spec: a word in one of the "fixed-width slots of maxWordLength" of
the missing `Dictionary::getSuggestions` (section 6), cut to the width ("each word capped at
maxWordLength", section 4.4) and filled up with zeros. -/
def padWord (n : Nat) (word : List Int) : List Int :=
  word.take n ++ List.replicate (n - (word.take n).length) 0

/-- The buffer `old` after `new` has been written at its start. -/
def overwrite (new old : List Int) : List Int := new ++ old.drop new.length

/-- Modelled from the spec: what the Result Ranker of the missing class `Dictionary` holds
at the end of a call: every candidate discovered by the search (`search`, the stream of
section 4.3 in discovery order) has been fed, in that order, to a ranker of capacity
`maxWords` that was empty at the start (section 4.4). -/
def Dictionary.ranked (search : SuggestArgs → Mem → List Candidate) (a : SuggestArgs)
    (m : Mem) : List Candidate :=
  (search a m).foldl (rankerInsert a.maxWords.toNat) []

/-- Modelled from the spec: the method `Dictionary::getSuggestions` (`dictionary.cpp` is
missing from the sources).  The Ambiguous Suggestion Search of section 4.3 is taken as the
stream of candidates it discovers, in discovery order (`search`); every candidate is fed to
the Result Ranker with capacity `maxWords` (section 4.4); the ranked words are written to the
"parallel output buffers of characters (fixed-width slots of maxWordLength) and frequencies"
and the "count of words written" is returned (section 6). -/
def Dictionary.getSuggestions (search : SuggestArgs → Mem → List Candidate) : SuggestEngine :=
  fun a m =>
    let ranked := Dictionary.ranked search a m
    let chars := (ranked.map (fun c => padWord a.maxWordLength.toNat c.word)).flatten
    let m1 := update m a.outWords (overwrite chars (m a.outWords))
    let m2 := update m1 a.frequencies (overwrite (ranked.map (fun c => c.score)) (m1 a.frequencies))
    ((ranked.length : Int), m2)

/-! ## Concrete collaborators -/

/-- A world without `Dictionary` objects, in which array `0` of each kind holds elements. -/
def world0 : World :=
  ⟨fun _ => none,
   fun p => match p with
     | .intArray 0 => [1, 2, 3]
     | .intArray 1 => [0, 0]
     | .charArray 0 => [104, 105]
     | _ => []⟩

/-- A VM that pins every array. -/
def pinningVM : ArrayVM := ⟨fun _ => false⟩

/-- A VM that copies every array. -/
def copyingVM : ArrayVM := ⟨fun _ => true⟩

/-- An engine that stores a value at the start of the input codes and finds no word. -/
def scribbleCodes : SuggestEngine :=
  fun a m => (0, update m a.codes (overwrite [99] (m a.codes)))

/-- An engine that reports one word of frequency `7` and leaves the other buffers alone. -/
def oneFrequency : SuggestEngine :=
  fun a m => (1, update m a.frequencies (overwrite [7] (m a.frequencies)))

/-- A lookup that overwrites the first character of the word and answers no. -/
def scribbleWord : ValidEngine :=
  fun _ word _ m => (false, update m word (overwrite [0] (m word)))

/-- A search that discovers three candidates, one of them twice. -/
def sampleSearch : SuggestArgs → Mem → List Candidate :=
  fun _ _ => [⟨[99, 97, 116], 100⟩, ⟨[99, 111, 116], 80⟩, ⟨[99, 97, 116], 120⟩, ⟨[99, 97, 114], 60⟩]

/-- Collaborators of `open` on a 32-bit target, with the given asset and allocation. -/
def openEnv32 (asset : Option Asset) (newAddr : Nat) : OpenEnv :=
  ⟨.w32, 1, "dict", fun _ => asset, newAddr⟩

/-- A VM in which every step of loading succeeds except the lookup of
`java/io/FileDescriptor`. -/
def noFileDescriptorEnv : LoadEnv :=
  ⟨true, fun name => name != "java/io/FileDescriptor", 0⟩

end BinaryDictionary

namespace BinaryDictionary

/-! ## Pointers and handles -/

theorem jintToPtr_zero (w : PtrWidth) : jintToPtr w 0 = 0 := by
  cases w <;> simp [jintToPtr]

theorem jintToPtr_ne_zero (w : PtrWidth) (h : Int) (hj : isJint h) (h0 : h ≠ 0) :
    jintToPtr w h ≠ 0 := by
  unfold isJint at hj
  cases w <;> simp only [jintToPtr, PtrWidth.bits] <;> norm_num at hj ⊢ <;> omega

theorem ptrToJint_ne_zero (a : Nat) (h0 : 0 < a) (hlt : a < 2 ^ 32) : ptrToJint a ≠ 0 := by
  simp only [ptrToJint, wrapJint]
  norm_num at hlt ⊢
  omega

theorem jintToPtr_ptrToJint (w : PtrWidth) (a : Nat) (hlt : a < 2 ^ 32)
    (hw : w = .w32 ∨ a < 2 ^ 31) : jintToPtr w (ptrToJint a) = a := by
  rcases w with _ | _
  · simp only [jintToPtr, ptrToJint, wrapJint, PtrWidth.bits]
    norm_num at hlt ⊢
    omega
  · have h31 : a < 2 ^ 31 := by
      rcases hw with hw | hw
      · cases hw
      · exact hw
    simp only [jintToPtr, ptrToJint, wrapJint, PtrWidth.bits]
    norm_num at h31 ⊢
    omega

theorem ptrToJint_mod (a : Nat) : ptrToJint a % 2 ^ 32 = (a : Int) % 2 ^ 32 := by
  simp only [ptrToJint, wrapJint]
  norm_num
  omega

/-! ## Null handles -/

/-- C1: with a null handle `getSuggestions` returns 0, makes no call at all (no array is
acquired or released, the engine is not called) and leaves the memory, hence the output
character array and the frequency array, as it was. -/
theorem getSuggestions_null_handle (width : PtrWidth) (vm : ArrayVM) (engine : SuggestEngine)
    (w : World) (inputArray : Nat) (arraySize : Int) (outputArray frequencyArray : Nat)
    (maxWordLength maxWords maxAlternatives skipPos : Int) :
    (latinime_BinaryDictionary_getSuggestions width vm engine w 0 inputArray arraySize
        outputArray frequencyArray maxWordLength maxWords maxAlternatives skipPos).value = 0
    ∧ (latinime_BinaryDictionary_getSuggestions width vm engine w 0 inputArray arraySize
        outputArray frequencyArray maxWordLength maxWords maxAlternatives skipPos).events = []
    ∧ (latinime_BinaryDictionary_getSuggestions width vm engine w 0 inputArray arraySize
        outputArray frequencyArray maxWordLength maxWords maxAlternatives skipPos).world = w := by
  simp [latinime_BinaryDictionary_getSuggestions, jintToPtr_zero]

/-- C2: with a null handle `isValidWord` returns false and makes no call at all: the word
array is not acquired and the engine is not called. -/
theorem isValidWord_null_handle (width : PtrWidth) (vm : ArrayVM) (engine : ValidEngine)
    (w : World) (wordArray : Nat) (wordLength : Int) :
    (latinime_BinaryDictionary_isValidWord width vm engine w 0 wordArray wordLength).value
        = false
    ∧ (latinime_BinaryDictionary_isValidWord width vm engine w 0 wordArray wordLength).events
        = []
    ∧ (latinime_BinaryDictionary_isValidWord width vm engine w 0 wordArray wordLength).world
        = w := by
  simp [latinime_BinaryDictionary_isValidWord, jintToPtr_zero]

/-! ## `open` -/

/-- C3: when the asset manager has no native peer, or the asset cannot be opened, or the
asset's buffer is null, `open` returns the zero handle, none of its calls throws an exception
or constructs a `Dictionary`, and the heap of `Dictionary` objects is unchanged. -/
theorem open_missing_buffer (env : OpenEnv) (w : World)
    (typedLetterMultiplier fullWordMultiplier : Int)
    (h : env.am = 0 ∨ env.openNonAsset env.resourcePath = none
        ∨ ∃ a, env.openNonAsset env.resourcePath = some a ∧ a.buffer = none) :
    (latinime_BinaryDictionary_open env w typedLetterMultiplier fullWordMultiplier).value = 0
    ∧ (∀ e ∈ (latinime_BinaryDictionary_open env w typedLetterMultiplier
          fullWordMultiplier).events, e.isThrow = false ∧ e.isNew = false)
    ∧ (latinime_BinaryDictionary_open env w typedLetterMultiplier fullWordMultiplier).world
        = w := by
  unfold latinime_BinaryDictionary_open
  by_cases ham : env.am = 0
  · simp [ham, Event.isThrow, Event.isNew]
  · rcases h with h | h | ⟨a, h, hb⟩
    · exact absurd h ham
    · simp [ham, h, Event.isThrow, Event.isNew]
    · simp [ham, h, hb, Event.isThrow, Event.isNew]

/-- Witness of C3: an asset that opens but has no buffer. -/
theorem open_missing_buffer_witness :
    (latinime_BinaryDictionary_open (openEnv32 (some ⟨7, none⟩) 4096) world0 2 2).value = 0
    ∧ (∀ e ∈ (latinime_BinaryDictionary_open (openEnv32 (some ⟨7, none⟩) 4096) world0 2
          2).events, e.isThrow = false ∧ e.isNew = false)
    ∧ (latinime_BinaryDictionary_open (openEnv32 (some ⟨7, none⟩) 4096) world0 2 2).world
        = world0 :=
  open_missing_buffer (openEnv32 (some ⟨7, none⟩) 4096) world0 2 2
    (Or.inr (Or.inr ⟨⟨7, none⟩, rfl, rfl⟩))

/-- C4, as stated, fails: on a 32-bit target, for a non-null buffer of no bytes at all
(truncated before any root) `open` returns the handle 4096, not 0, and the handle refers to a
`Dictionary` built over that buffer. -/
theorem open_truncated_buffer_nonzero :
    (latinime_BinaryDictionary_open (openEnv32 (some ⟨7, some []⟩) 4096) world0 2 2).value
        = 4096
    ∧ (latinime_BinaryDictionary_open (openEnv32 (some ⟨7, some []⟩) 4096) world0 2 2).value
        ≠ 0
    ∧ (latinime_BinaryDictionary_open (openEnv32 (some ⟨7, some []⟩) 4096) world0 2
        2).world.heap 4096 = some ⟨[], 2, 2, some 7⟩ := by
  decide

/-- C4, amended: `open` does not look into the buffer.  For every non-null buffer, whatever
its bytes, `open` constructs a `Dictionary` over it, attaches the asset, releases the path
string, and returns the address of that `Dictionary` converted to `jint`. -/
theorem open_ignores_buffer_contents (env : OpenEnv) (w : World)
    (typedLetterMultiplier fullWordMultiplier : Int) (a : Asset) (bytes : List Nat)
    (ham : env.am ≠ 0) (hasset : env.openNonAsset env.resourcePath = some a)
    (hbuf : a.buffer = some bytes) :
    (latinime_BinaryDictionary_open env w typedLetterMultiplier fullWordMultiplier).value
        = ptrToJint env.newAddr
    ∧ (latinime_BinaryDictionary_open env w typedLetterMultiplier fullWordMultiplier).events
        = [.getIntField, .getStringUTFChars, .openNonAsset (some a.id), .getBuffer a.id,
           .newDictionary env.newAddr, .setAsset env.newAddr a.id, .releaseStringUTFChars]
    ∧ (latinime_BinaryDictionary_open env w typedLetterMultiplier
        fullWordMultiplier).world.heap env.newAddr
        = some ⟨bytes, typedLetterMultiplier, fullWordMultiplier, some a.id⟩ := by
  simp [latinime_BinaryDictionary_open, ham, hasset, hbuf, update]

/-- Witness of C4 amended: a buffer of three arbitrary bytes. -/
theorem open_ignores_buffer_contents_witness :
    (latinime_BinaryDictionary_open (openEnv32 (some ⟨7, some [255, 0, 1]⟩) 4096) world0 2
        3).value = ptrToJint 4096
    ∧ (latinime_BinaryDictionary_open (openEnv32 (some ⟨7, some [255, 0, 1]⟩) 4096) world0 2
        3).events
        = [.getIntField, .getStringUTFChars, .openNonAsset (some 7), .getBuffer 7,
           .newDictionary 4096, .setAsset 4096 7, .releaseStringUTFChars]
    ∧ (latinime_BinaryDictionary_open (openEnv32 (some ⟨7, some [255, 0, 1]⟩) 4096) world0 2
        3).world.heap 4096 = some ⟨[255, 0, 1], 2, 3, some 7⟩ :=
  open_ignores_buffer_contents (openEnv32 (some ⟨7, some [255, 0, 1]⟩) 4096) world0 2 3
    ⟨7, some [255, 0, 1]⟩ [255, 0, 1] (by decide) rfl rfl

/-! ## Library loading -/

/-- The values `JNI_OnLoad` returns, and when. -/
theorem JNI_OnLoad_eq_version_iff (env : LoadEnv) :
    JNI_OnLoad env = JNI_VERSION_1_4 ↔
      env.getEnvOk = true
      ∧ (env.findClass "java/io/FileDescriptor" = false
         ∨ env.findClass "android/content/res/AssetManager" = false
         ∨ (env.findClass "com/android/inputmethod/latin/BinaryDictionary" = true
            ∧ 0 ≤ env.registerNativesResult)) := by
  simp only [JNI_OnLoad, registerNatives, registerNativeMethods, JNI_VERSION_1_4, JNI_FALSE,
    JNI_TRUE]
  generalize env.getEnvOk = g
  generalize env.findClass "java/io/FileDescriptor" = fd
  generalize env.findClass "android/content/res/AssetManager" = am
  generalize env.findClass "com/android/inputmethod/latin/BinaryDictionary" = bd
  generalize env.registerNativesResult = r
  by_cases hr : r < 0
  · have hr2 : ¬ 0 ≤ r := by omega
    cases g <;> cases fd <;> cases am <;> cases bd <;> simp [hr, hr2]
  · have hr2 : 0 ≤ r := by omega
    cases g <;> cases fd <;> cases am <;> cases bd <;> simp [hr, hr2]

/-- C5: when `GetEnv` succeeds and the class `java/io/FileDescriptor` is not found,
`registerNatives` returns `-1`, which `JNI_OnLoad` takes for success: it returns
`JNI_VERSION_1_4` (65540), not `-1`. -/
theorem JNI_OnLoad_missing_class_returns_version :
    registerNatives noFileDescriptorEnv = -1
    ∧ JNI_OnLoad noFileDescriptorEnv = JNI_VERSION_1_4
    ∧ JNI_OnLoad noFileDescriptorEnv = 65540
    ∧ JNI_OnLoad noFileDescriptorEnv ≠ -1 := by
  decide

/-! ## Handles and addresses -/

/-- C6: on a target on which the binding compiles (32-bit pointers, so the address of the
object allocated by `new` is not null and below `2 ^ 32`), when the asset manager peer, the
asset and its buffer are all available, `open` returns a non-zero handle, which is the
address modulo `2 ^ 32`, and converting the handle back to a pointer gives the address of
the `Dictionary` that `open` constructed from the buffer and the two multipliers, with the
asset attached. -/
theorem open_handle_roundtrip (env : OpenEnv) (w : World)
    (typedLetterMultiplier fullWordMultiplier : Int) (a : Asset) (bytes : List Nat)
    (hwidth : env.width = .w32) (ham : env.am ≠ 0)
    (hasset : env.openNonAsset env.resourcePath = some a)
    (hbuf : a.buffer = some bytes) (h0 : 0 < env.newAddr) (hlt : env.newAddr < 2 ^ 32) :
    (latinime_BinaryDictionary_open env w typedLetterMultiplier fullWordMultiplier).value ≠ 0
    ∧ (latinime_BinaryDictionary_open env w typedLetterMultiplier fullWordMultiplier).value
        % 2 ^ 32 = (env.newAddr : Int) % 2 ^ 32
    ∧ jintToPtr env.width
        (latinime_BinaryDictionary_open env w typedLetterMultiplier fullWordMultiplier).value
        = env.newAddr
    ∧ (latinime_BinaryDictionary_open env w typedLetterMultiplier
        fullWordMultiplier).world.heap
        (jintToPtr env.width
          (latinime_BinaryDictionary_open env w typedLetterMultiplier fullWordMultiplier).value)
        = some ⟨bytes, typedLetterMultiplier, fullWordMultiplier, some a.id⟩ := by
  have hv : (latinime_BinaryDictionary_open env w typedLetterMultiplier
      fullWordMultiplier).value = ptrToJint env.newAddr := by
    simp [latinime_BinaryDictionary_open, ham, hasset, hbuf]
  have hh : (latinime_BinaryDictionary_open env w typedLetterMultiplier
      fullWordMultiplier).world.heap env.newAddr
      = some ⟨bytes, typedLetterMultiplier, fullWordMultiplier, some a.id⟩ := by
    simp [latinime_BinaryDictionary_open, ham, hasset, hbuf, update]
  have hback := jintToPtr_ptrToJint env.width env.newAddr hlt (Or.inl hwidth)
  rw [hv, hback]
  exact ⟨ptrToJint_ne_zero env.newAddr h0 hlt, ptrToJint_mod env.newAddr, rfl, hh⟩

/-- Witness of C6: a 32-bit target and an address in the upper half of the address
space, for which the handle is negative. -/
theorem open_handle_roundtrip_witness :
    (latinime_BinaryDictionary_open (openEnv32 (some ⟨7, some [1, 2]⟩) 3221225472) world0 2
        3).value ≠ 0
    ∧ (latinime_BinaryDictionary_open (openEnv32 (some ⟨7, some [1, 2]⟩) 3221225472) world0 2
        3).value % 2 ^ 32 = ((openEnv32 (some ⟨7, some [1, 2]⟩) 3221225472).newAddr : Int)
          % 2 ^ 32
    ∧ jintToPtr (openEnv32 (some ⟨7, some [1, 2]⟩) 3221225472).width
        (latinime_BinaryDictionary_open (openEnv32 (some ⟨7, some [1, 2]⟩) 3221225472) world0 2
          3).value = (openEnv32 (some ⟨7, some [1, 2]⟩) 3221225472).newAddr
    ∧ (latinime_BinaryDictionary_open (openEnv32 (some ⟨7, some [1, 2]⟩) 3221225472) world0 2
        3).world.heap
        (jintToPtr (openEnv32 (some ⟨7, some [1, 2]⟩) 3221225472).width
          (latinime_BinaryDictionary_open (openEnv32 (some ⟨7, some [1, 2]⟩) 3221225472) world0
            2 3).value)
        = some ⟨[1, 2], 2, 3, some (Asset.mk 7 (some [1, 2])).id⟩ :=
  open_handle_roundtrip (openEnv32 (some ⟨7, some [1, 2]⟩) 3221225472) world0 2 3
    ⟨7, some [1, 2]⟩ [1, 2] rfl (by decide) rfl rfl (by decide) (by decide)

/-! ## `close` -/

/-- C8: on a target on which the binding compiles (32-bit pointers, so the address of the
object allocated by `new` is below `2 ^ 32`), for the handle returned by an `open` that found
the asset manager peer, the asset and its buffer, in every later world in which the
`Dictionary` is still as `open` left it (not yet closed), `close` asks the `Dictionary` for
its asset, closes exactly the asset that `open` opened and attached, and then deletes the
`Dictionary`: it is gone from the heap, and nothing else on the heap changes. -/
theorem close_releases_asset_then_dictionary (env : OpenEnv) (w w2 : World)
    (typedLetterMultiplier fullWordMultiplier : Int) (a : Asset) (bytes : List Nat)
    (hwidth : env.width = .w32) (ham : env.am ≠ 0)
    (hasset : env.openNonAsset env.resourcePath = some a)
    (hbuf : a.buffer = some bytes) (hlt : env.newAddr < 2 ^ 32)
    (hlive : w2.heap env.newAddr
      = (latinime_BinaryDictionary_open env w typedLetterMultiplier
          fullWordMultiplier).world.heap env.newAddr) :
    ∃ out, latinime_BinaryDictionary_close env.width w2
        (latinime_BinaryDictionary_open env w typedLetterMultiplier fullWordMultiplier).value
        = some out
      ∧ out.events
        = [.getAsset env.newAddr, .closeAsset a.id, .deleteDictionary env.newAddr]
      ∧ out.world.heap env.newAddr = none
      ∧ ∀ p, p ≠ env.newAddr → out.world.heap p = w2.heap p := by
  have hv : (latinime_BinaryDictionary_open env w typedLetterMultiplier
      fullWordMultiplier).value = ptrToJint env.newAddr := by
    simp [latinime_BinaryDictionary_open, ham, hasset, hbuf]
  have hh : (latinime_BinaryDictionary_open env w typedLetterMultiplier
      fullWordMultiplier).world.heap env.newAddr
      = some ⟨bytes, typedLetterMultiplier, fullWordMultiplier, some a.id⟩ := by
    simp [latinime_BinaryDictionary_open, ham, hasset, hbuf, update]
  have hback := jintToPtr_ptrToJint env.width env.newAddr hlt (Or.inl hwidth)
  rw [hh] at hlive
  rw [hv]
  refine ⟨⟨(), [.getAsset env.newAddr, .closeAsset a.id, .deleteDictionary env.newAddr],
    { w2 with heap := update w2.heap env.newAddr none }⟩, ?_, rfl, ?_, ?_⟩
  · simp [latinime_BinaryDictionary_close, hback, hlive]
  · simp [update]
  · intro p hp
    simp [update, hp]

/-- Witness of C8: `close` right after `open` on a 32-bit target. -/
theorem close_releases_asset_then_dictionary_witness :
    ∃ out, latinime_BinaryDictionary_close (openEnv32 (some ⟨7, some [1, 2]⟩) 4096).width
        (latinime_BinaryDictionary_open (openEnv32 (some ⟨7, some [1, 2]⟩) 4096) world0 2
          3).world
        (latinime_BinaryDictionary_open (openEnv32 (some ⟨7, some [1, 2]⟩) 4096) world0 2
          3).value = some out
      ∧ out.events
        = [.getAsset (openEnv32 (some ⟨7, some [1, 2]⟩) 4096).newAddr,
           .closeAsset (Asset.mk 7 (some [1, 2])).id,
           .deleteDictionary (openEnv32 (some ⟨7, some [1, 2]⟩) 4096).newAddr]
      ∧ out.world.heap (openEnv32 (some ⟨7, some [1, 2]⟩) 4096).newAddr = none
      ∧ ∀ p, p ≠ (openEnv32 (some ⟨7, some [1, 2]⟩) 4096).newAddr →
          out.world.heap p
            = (latinime_BinaryDictionary_open (openEnv32 (some ⟨7, some [1, 2]⟩) 4096) world0 2
                3).world.heap p :=
  close_releases_asset_then_dictionary (openEnv32 (some ⟨7, some [1, 2]⟩) 4096) world0
    (latinime_BinaryDictionary_open (openEnv32 (some ⟨7, some [1, 2]⟩) 4096) world0 2 3).world
    2 3 ⟨7, some [1, 2]⟩ [1, 2] rfl (by decide) rfl rfl (by decide) rfl

/-! ## What `open` leaves held -/

/-- On every path of `open` the path string is released as often as it is acquired, and at
most once. -/
theorem open_releases_path_string (env : OpenEnv) (w : World)
    (typedLetterMultiplier fullWordMultiplier : Int) :
    (latinime_BinaryDictionary_open env w typedLetterMultiplier
        fullWordMultiplier).events.count .releaseStringUTFChars
      = (latinime_BinaryDictionary_open env w typedLetterMultiplier
          fullWordMultiplier).events.count .getStringUTFChars
    ∧ (latinime_BinaryDictionary_open env w typedLetterMultiplier
        fullWordMultiplier).events.count .getStringUTFChars ≤ 1 := by
  unfold latinime_BinaryDictionary_open
  by_cases ham : env.am = 0
  · simp [ham]
  · rcases hasset : env.openNonAsset env.resourcePath with _ | a
    · simp [ham]
    · rcases hbuf : a.buffer with _ | bytes
      · simp [ham, hbuf]
      · simp [ham, hbuf]

/-- C9: when the asset opens (asset 7) and its buffer is null, `open` returns the zero
handle and has released the path string once, but it has made no call that closes the asset:
asset 7 is still open when `open` returns, and nothing refers to it any more. -/
theorem open_null_buffer_leaves_asset_open :
    (latinime_BinaryDictionary_open (openEnv32 (some ⟨7, none⟩) 4096) world0 2 3).value = 0
    ∧ (latinime_BinaryDictionary_open (openEnv32 (some ⟨7, none⟩) 4096) world0 2 3).events
        = [.getIntField, .getStringUTFChars, .openNonAsset (some 7), .getBuffer 7,
           .releaseStringUTFChars]
    ∧ heldAssets
        (latinime_BinaryDictionary_open (openEnv32 (some ⟨7, none⟩) 4096) world0 2 3).events
        = [7]
    ∧ (latinime_BinaryDictionary_open (openEnv32 (some ⟨7, none⟩) 4096) world0 2
        3).world.heap 4096 = none := by
  decide

/-! ## The count returned by `getSuggestions` -/

theorem insertSorted_length (c : Candidate) (rs : List Candidate) :
    (insertSorted c rs).length = rs.length + 1 := by
  induction rs with
  | nil => rfl
  | cons x xs ih =>
    unfold insertSorted
    split
    · simp [ih]
    · simp

theorem filter_not_length_lt_of_find (p : Candidate → Bool) (rs : List Candidate)
    (old : Candidate) (h : rs.find? p = some old) :
    (rs.filter (fun r => !p r)).length < rs.length := by
  induction rs with
  | nil => simp at h
  | cons x xs ih =>
    cases hp : p x with
    | true =>
      have hle := List.length_filter_le (fun r => !p r) xs
      rw [List.filter_cons_of_neg (by simp [hp])]
      simp only [List.length_cons]
      omega
    | false =>
      have hfind : xs.find? p = some old := by
        simpa [List.find?_cons, hp] using h
      have hlt := ih hfind
      rw [List.filter_cons_of_pos (by simp [hp])]
      simp only [List.length_cons]
      omega

theorem filter_length_lt_of_find (word : List Int) (rs : List Candidate) (old : Candidate)
    (h : rs.find? (fun r => decide (r.word = word)) = some old) :
    (rs.filter (fun r => decide (r.word ≠ word))).length < rs.length := by
  have hlt := filter_not_length_lt_of_find (fun r => decide (r.word = word)) rs old h
  have heq : (fun r : Candidate => decide (r.word ≠ word))
      = (fun r : Candidate => !decide (r.word = word)) := by
    funext r
    simp
  rw [heq]
  exact hlt

theorem rankerInsert_length_le (K : Nat) (rs : List Candidate) (c : Candidate)
    (h : rs.length ≤ K) : (rankerInsert K rs c).length ≤ K := by
  unfold rankerInsert
  split
  · next old hfind =>
    split
    · have := filter_length_lt_of_find c.word rs old hfind
      rw [insertSorted_length]
      omega
    · exact h
  · split
    · rw [insertSorted_length]
      omega
    · split
      · next low hlast =>
        split
        · have hne : rs ≠ [] := by
            intro hnil
            simp [hnil] at hlast
          have hpos : 0 < rs.length := List.length_pos.mpr hne
          rw [insertSorted_length, List.length_dropLast]
          omega
        · exact h
      · exact h

theorem ranker_length_le (K : Nat) (cs rs : List Candidate) (h : rs.length ≤ K) :
    (cs.foldl (rankerInsert K) rs).length ≤ K := by
  induction cs generalizing rs with
  | nil => simpa using h
  | cons c cs ih =>
    simp only [List.foldl_cons]
    exact ih _ (rankerInsert_length_le K rs c h)

/-- C7, as stated, fails: a call with a null handle and `maxWords = -1` returns the count 0,
which exceeds the requested `maxWords`. -/
theorem getSuggestions_count_exceeds_negative_maxWords :
    (latinime_BinaryDictionary_getSuggestions .w32 pinningVM
        (Dictionary.getSuggestions sampleSearch) world0 0 0 3 0 1 4 (-1) 2 (-1)).value = 0
    ∧ ¬ (latinime_BinaryDictionary_getSuggestions .w32 pinningVM
        (Dictionary.getSuggestions sampleSearch) world0 0 0 3 0 1 4 (-1) 2 (-1)).value
        ≤ -1 := by
  decide

/-- For every engine, the count returned by `getSuggestions` is 0 for a null handle and
otherwise the count the engine returns for the arguments and memory the binding hands it. -/
theorem getSuggestions_value (width : PtrWidth) (vm : ArrayVM) (engine : SuggestEngine)
    (w : World) (dict : Int) (inputArray : Nat) (arraySize : Int)
    (outputArray frequencyArray : Nat)
    (maxWordLength maxWords maxAlternatives skipPos : Int) :
    (latinime_BinaryDictionary_getSuggestions width vm engine w dict inputArray arraySize
        outputArray frequencyArray maxWordLength maxWords maxAlternatives skipPos).value
      = if jintToPtr width dict = 0 then 0
        else (engine
          (engineCallArgs width vm w dict inputArray arraySize outputArray frequencyArray
            maxWordLength maxWords maxAlternatives skipPos)
          (engineCallMem vm w inputArray outputArray frequencyArray)).1 := by
  unfold latinime_BinaryDictionary_getSuggestions engineCallArgs engineCallMem
  by_cases hnull : jintToPtr width dict = 0
  · simp [hnull]
  · simp [hnull]

/-- C7, amended: for every call of `getSuggestions` with `maxWords` not negative, whatever
candidates the search discovers, the count returned is 0 for a null handle and otherwise the
number of words held by the result ranker of capacity `maxWords` once every candidate
discovered for the arguments of the call has been fed to it; in both cases it lies in
`0..maxWords`. -/
theorem getSuggestions_count_within_maxWords (width : PtrWidth) (vm : ArrayVM)
    (search : SuggestArgs → Mem → List Candidate) (w : World) (dict : Int) (inputArray : Nat)
    (arraySize : Int) (outputArray frequencyArray : Nat)
    (maxWordLength maxWords maxAlternatives skipPos : Int) (hmax : 0 ≤ maxWords) :
    (latinime_BinaryDictionary_getSuggestions width vm (Dictionary.getSuggestions search)
        w dict inputArray arraySize outputArray frequencyArray maxWordLength maxWords
        maxAlternatives skipPos).value
      = (if jintToPtr width dict = 0 then 0
         else ((Dictionary.ranked search
           (engineCallArgs width vm w dict inputArray arraySize outputArray frequencyArray
             maxWordLength maxWords maxAlternatives skipPos)
           (engineCallMem vm w inputArray outputArray frequencyArray)).length : Int))
    ∧ 0 ≤ (latinime_BinaryDictionary_getSuggestions width vm (Dictionary.getSuggestions search)
        w dict inputArray arraySize outputArray frequencyArray maxWordLength maxWords
        maxAlternatives skipPos).value
    ∧ (latinime_BinaryDictionary_getSuggestions width vm (Dictionary.getSuggestions search)
        w dict inputArray arraySize outputArray frequencyArray maxWordLength maxWords
        maxAlternatives skipPos).value ≤ maxWords := by
  rw [getSuggestions_value]
  by_cases hnull : jintToPtr width dict = 0
  · simp [hnull, hmax]
  · simp only [hnull, if_false, Dictionary.getSuggestions, true_and]
    have hlen := ranker_length_le maxWords.toNat
      (search
        (engineCallArgs width vm w dict inputArray arraySize outputArray frequencyArray
          maxWordLength maxWords maxAlternatives skipPos)
        (engineCallMem vm w inputArray outputArray frequencyArray))
      [] (Nat.zero_le _)
    have hcast : ((maxWords.toNat : Nat) : Int) = maxWords := Int.toNat_of_nonneg hmax
    have hK : (engineCallArgs width vm w dict inputArray arraySize outputArray frequencyArray
        maxWordLength maxWords maxAlternatives skipPos).maxWords = maxWords := rfl
    unfold Dictionary.ranked
    rw [hK]
    constructor
    · exact Int.ofNat_nonneg _
    · omega

/-- Witness of C7 amended: four candidates, one word twice, and room for two words; the
ranker ends with two words, and 2 is returned. -/
theorem getSuggestions_count_within_maxWords_witness :
    (0 : Int) ≤ 2
    ∧ (Dictionary.ranked sampleSearch
        (engineCallArgs .w32 copyingVM world0 5 0 3 0 1 4 2 2 (-1))
        (engineCallMem copyingVM world0 0 0 1)) = [⟨[99, 97, 116], 120⟩, ⟨[99, 111, 116], 80⟩]
    ∧ (latinime_BinaryDictionary_getSuggestions .w32 copyingVM
        (Dictionary.getSuggestions sampleSearch) world0 5 0 3 0 1 4 2 2 (-1)).value
      = (if jintToPtr .w32 5 = 0 then 0
         else ((Dictionary.ranked sampleSearch
           (engineCallArgs .w32 copyingVM world0 5 0 3 0 1 4 2 2 (-1))
           (engineCallMem copyingVM world0 0 0 1)).length : Int))
    ∧ 0 ≤ (latinime_BinaryDictionary_getSuggestions .w32 copyingVM
        (Dictionary.getSuggestions sampleSearch) world0 5 0 3 0 1 4 2 2 (-1)).value
    ∧ (latinime_BinaryDictionary_getSuggestions .w32 copyingVM
        (Dictionary.getSuggestions sampleSearch) world0 5 0 3 0 1 4 2 2 (-1)).value ≤ 2 :=
  ⟨by decide, by decide,
   getSuggestions_count_within_maxWords .w32 copyingVM sampleSearch world0 5 0 3 0 1 4 2 2
     (-1) (by decide)⟩

/-! ## The arrays of `getSuggestions` and `isValidWord` -/

theorem scribbleCodes_local : scribbleCodes.Local := by
  intro a m p h1 _ _
  simp [scribbleCodes, update, h1]

theorem scribbleWord_local : scribbleWord.Local := by
  intro d word n m p h1
  simp [scribbleWord, update, h1]

/-- C10, as stated, fails.  With a non-null handle and a VM that pins the arrays, an engine
that writes through the pointer to the input codes changes the caller's input array (from
`[1, 2, 3]` to `[99, 2, 3]`), and a lookup that writes through the word pointer changes the
caller's word array, although both are released with `JNI_ABORT`.  With a VM that copies, a
caller that passes one `int[]` as input and as frequency array finds the frequencies in its
input array, committed by the release of the frequency array. -/
theorem input_array_changed_when_pinned_or_shared :
    world0.mem (.intArray 0) = [1, 2, 3]
    ∧ (latinime_BinaryDictionary_getSuggestions .w32 pinningVM scribbleCodes world0 5 0 3 0 1
        2 2 2 (-1)).world.mem (.intArray 0) = [99, 2, 3]
    ∧ world0.mem (.charArray 0) = [104, 105]
    ∧ (latinime_BinaryDictionary_isValidWord .w32 pinningVM scribbleWord world0 5 0
        2).world.mem (.charArray 0) = [0, 105]
    ∧ (latinime_BinaryDictionary_getSuggestions .w32 copyingVM oneFrequency world0 5 0 3 0 0
        2 2 2 (-1)).world.mem (.intArray 0) = [7, 2, 3] := by
  decide

/-- C10, amended: for every non-null handle and every behaviour of the engine,
`getSuggestions` acquires the frequency, input and output arrays, calls the engine, and
releases each of the three once, the frequency and output arrays in commit mode (0) and the
input array in discard mode (`JNI_ABORT`); `isValidWord` acquires the word array, calls the
engine and releases the array once in discard mode.  When the engine writes only through the
pointers it is given, the input array of `getSuggestions` holds after the call what it held
before whenever the VM handed out a copy of it and it is not also the frequency array, and
the word array of `isValidWord` whenever the VM handed out a copy of it. -/
theorem arrays_released_and_copied_input_kept (width : PtrWidth) (vm : ArrayVM)
    (engine : SuggestEngine) (lookup : ValidEngine) (w : World) (dict : Int)
    (inputArray : Nat) (arraySize : Int) (outputArray frequencyArray : Nat)
    (maxWordLength maxWords maxAlternatives skipPos : Int) (wordArray : Nat)
    (wordLength : Int) (hj : isJint dict) (h0 : dict ≠ 0) :
    (latinime_BinaryDictionary_getSuggestions width vm engine w dict inputArray arraySize
        outputArray frequencyArray maxWordLength maxWords maxAlternatives skipPos).events
      = [.getIntArrayElements frequencyArray, .getIntArrayElements inputArray,
         .getCharArrayElements outputArray, .engineGetSuggestions (jintToPtr width dict),
         .releaseIntArrayElements frequencyArray 0,
         .releaseIntArrayElements inputArray JNI_ABORT,
         .releaseCharArrayElements outputArray 0]
    ∧ (engine.Local → vm.copies 1 = true → inputArray ≠ frequencyArray →
        (latinime_BinaryDictionary_getSuggestions width vm engine w dict inputArray arraySize
          outputArray frequencyArray maxWordLength maxWords maxAlternatives
          skipPos).world.mem (.intArray inputArray) = w.mem (.intArray inputArray))
    ∧ (latinime_BinaryDictionary_isValidWord width vm lookup w dict wordArray
        wordLength).events
      = [.getCharArrayElements wordArray, .engineIsValidWord (jintToPtr width dict),
         .releaseCharArrayElements wordArray JNI_ABORT]
    ∧ (lookup.Local → vm.copies 0 = true →
        (latinime_BinaryDictionary_isValidWord width vm lookup w dict wordArray
          wordLength).world.mem (.charArray wordArray) = w.mem (.charArray wordArray)) := by
  have hnull : jintToPtr width dict ≠ 0 := jintToPtr_ne_zero width dict hj h0
  refine ⟨?_, ?_, ?_, ?_⟩
  · simp [latinime_BinaryDictionary_getSuggestions, hnull]
  · intro hlocal hcopy hne
    have hne2 : ¬ frequencyArray = inputArray := fun h => hne h.symm
    simp only [latinime_BinaryDictionary_getSuggestions, hnull, if_false]
    cases h0c : vm.copies 0 <;> cases h2c : vm.copies 2 <;>
      simp [getArrayElements, releaseArrayElements, JNI_ABORT, update, hcopy, h0c, h2c, hne,
        hne2] <;>
      rw [hlocal _ _ _ (by simp) (by simp) (by simp [hne])] <;>
      simp [update]
  · simp [latinime_BinaryDictionary_isValidWord, hnull]
  · intro hlocal hcopy
    simp only [latinime_BinaryDictionary_isValidWord, hnull, if_false]
    simp only [getArrayElements, releaseArrayElements, JNI_ABORT, hcopy, if_true]
    rw [hlocal _ _ _ _ _ (by simp)]
    simp [update]

/-- Witness of C10 amended: a VM that copies, distinct arrays, and engines that write
through the pointers to the input codes and to the word. -/
theorem arrays_released_and_copied_input_kept_witness :
    isJint 5 ∧ (5 : Int) ≠ 0
    ∧ (latinime_BinaryDictionary_getSuggestions .w32 copyingVM scribbleCodes world0 5 0 3 0 1
        2 2 2 (-1)).events
      = [.getIntArrayElements 1, .getIntArrayElements 0, .getCharArrayElements 0,
         .engineGetSuggestions (jintToPtr .w32 5), .releaseIntArrayElements 1 0,
         .releaseIntArrayElements 0 JNI_ABORT, .releaseCharArrayElements 0 0]
    ∧ (latinime_BinaryDictionary_getSuggestions .w32 copyingVM scribbleCodes world0 5 0 3 0 1
        2 2 2 (-1)).world.mem (.intArray 0) = world0.mem (.intArray 0)
    ∧ (latinime_BinaryDictionary_isValidWord .w32 copyingVM scribbleWord world0 5 0 2).events
      = [.getCharArrayElements 0, .engineIsValidWord (jintToPtr .w32 5),
         .releaseCharArrayElements 0 JNI_ABORT]
    ∧ (latinime_BinaryDictionary_isValidWord .w32 copyingVM scribbleWord world0 5 0
        2).world.mem (.charArray 0) = world0.mem (.charArray 0) :=
  have h := arrays_released_and_copied_input_kept .w32 copyingVM scribbleCodes scribbleWord
    world0 5 0 3 0 1 2 2 2 (-1) 0 2 (by decide) (by decide)
  ⟨by decide, by decide, h.1, h.2.1 scribbleCodes_local rfl (by decide), h.2.2.1,
   h.2.2.2 scribbleWord_local rfl⟩

end BinaryDictionary
